import Mathlib

/-!
Verification of the job-status polling and progress-synchronization logic of
the full-stack-lipsync frontend.

The embedded code lives in the project-detail page component (its
`pollForUpdates` interval callback, its `handleDelete` flow), the dashboard
page component (the fleet polling `useEffect`), and the axios API module
(request/response interceptors).  All of it is single-threaded, event-loop
driven JavaScript; the embedding models the component's React state plus the
browser timer environment as an explicit record, and a poll tick as a pure
state transformer on that record.
-/

namespace LipSync

/-! ## Progress Parser

The components parse a status message with the JavaScript regular expression
`/Progress (\d+)%: (.+)/` via `String.prototype.match`, then `parseInt` the
first capture.  `match` with a non-global regex returns the leftmost match:
the engine tries each start position in order; at a position the literal
`Progress ` must match, then `(\d+)` takes the maximal run of decimal digits
(at least one; backtracking cannot help because `%` is not a digit), then the
literal `%: `, then `(.+)` takes the maximal run of characters `.` matches
(at least one; `.` excludes the line terminators LF, CR, U+2028 and U+2029).
The capture is used verbatim: the source never trims it. -/

/-- Numeric value of a run of decimal digits, as `parseInt` computes it on a
digit-only string (exact for the magnitudes that occur here). -/
def digitsToNat (l : List Char) : Nat :=
  l.foldl (fun a c => a * 10 + (c.toNat - '0'.toNat)) 0

/-- Consume an expected literal character sequence from the front of the
input, returning the remainder, or `none` if the input does not start with
that literal. -/
def dropLit : List Char → List Char → Option (List Char)
  | [], l => some l
  | _ :: _, [] => none
  | p :: ps, c :: cs => if c = p then dropLit ps cs else none

/-- Characters matched by `.` in a JavaScript regex without the `s` flag:
everything except the four line terminators LF, CR, LINE SEPARATOR and
PARAGRAPH SEPARATOR. -/
def jsDotMatches (c : Char) : Bool :=
  !(c = '\n' || c = '\r' || c = '\u2028' || c = '\u2029')

/-- Attempt of `/Progress (\d+)%: (.+)/` anchored at the current position:
literal `Progress `, one or more digits (maximal run), literal `%: `, then
one or more characters matched by `.` (maximal run: the rest of the line,
stopping at the first line terminator). -/
def matchProgressAt (l : List Char) : Option (Nat × String) :=
  (dropLit "Progress ".toList l).bind fun r1 =>
    let ds := r1.takeWhile Char.isDigit
    if ds.isEmpty then none
    else
      (dropLit "%: ".toList (r1.dropWhile Char.isDigit)).bind fun r2 =>
        let step := r2.takeWhile jsDotMatches
        if step.isEmpty then none else some (digitsToNat ds, String.mk step)

/-- Leftmost match: try `matchProgressAt` at each start position in order,
exactly as the regex engine scans the subject string. -/
def findProgressMatch : List Char → Option (Nat × String)
  | [] => none
  | c :: cs => (matchProgressAt (c :: cs)).orElse fun _ => findProgressMatch cs

/-- The Progress Parser: `message.match(/Progress (\d+)%: (.+)/)` together
with `parseInt` on the percent capture, as both page components apply it.
Returns `none` when the message does not contain the pattern. -/
def parseProgress (s : String) : Option (Nat × String) :=
  findProgressMatch s.toList

/-- Modelled from the spec: the spec asserts the step text is returned
"trimmed of surrounding whitespace"; no trimming operation appears anywhere in
the source, so the trimming the spec speaks of is embedded here from its
words: drop whitespace characters from both ends. -/
def trimSpec (l : List Char) : List Char :=
  ((l.dropWhile Char.isWhitespace).reverse.dropWhile Char.isWhitespace).reverse

/-! ## Single-job poller: the project-detail component

The detail page keeps its view of one job in React state hooks
(`status : string | null`, `progress : number`, `currentStep : string`), a
flag for whether the Redux projects store still holds the job, and timer
bookkeeping (`pollingIntervalRef` plus the set of interval timers that are
live in the browser).  `pollForUpdates` installs an interval timer whose
callback fetches the job and applies the update logic below.  The callback is
a closure: the `status` / `progress` / `currentStep` it compares against are
the values captured when the closure was created, while the `setX` calls write
the current state. -/

/-- Job payload of `GET /api/v1/projects/id` as the polling code reads it:
`status` is a plain string, `status_message` an optional free-text string. -/
structure Job where
  id : Nat
  status : String
  statusMessage : Option String
  deriving DecidableEq

/-- Outcome of one tick's awaited fetch: the promise either resolves with the
job payload or rejects (network or HTTP error). -/
inductive FetchResult where
  | ok (job : Job)
  | err (msg : String)
  deriving DecidableEq

/-- State of the detail-page component and its timer environment:
the three React state hooks the tick writes, presence of the job in the Redux
projects store, the set of live interval timers, `pollingIntervalRef.current`,
a counter supplying fresh timer ids, and the console error log. -/
structure CompState where
  status : Option String
  progress : Nat
  currentStep : String
  storeHas : Bool
  live : Finset Nat
  pollHandle : Option Nat
  nextTimer : Nat
  errorLog : List String
  deriving DecidableEq

/-- Values of the `status` / `progress` / `currentStep` state variables that
the interval callback closed over when `pollForUpdates` created it. -/
structure Captured where
  status : Option String
  progress : Nat
  currentStep : String
  deriving DecidableEq

/-- Component state at first render: `useState(null)`, `useState(0)`,
`useState('')`, job present in the store, no timers, null interval ref. -/
def initComp : CompState :=
  { status := none, progress := 0, currentStep := "", storeHas := true,
    live := ∅, pollHandle := none, nextTimer := 0, errorLog := [] }

/-- First statement of the tick body:
`if (updatedProject.status !== status) setStatus(updatedProject.status)` —
the comparison is against the captured `status`, the write goes to the
current state. -/
def applyStatus (cap : Captured) (j : Job) (s : CompState) : CompState :=
  if some j.status ≠ cap.status then { s with status := some j.status } else s

/-- JavaScript truthiness of the optional `status_message` field: `null`,
`undefined` and the empty string are falsy. -/
def jsTruthy : Option String → Bool
  | none => false
  | some m => m != ""

/-- The status message, or a default when it is absent or empty, as the
JavaScript expression `status_message || default` evaluates. -/
def jsOrElse : Option String → String → String
  | some m, d => if m = "" then d else m
  | none, d => d

/-- Progress branch of the tick body, entered only when
`updatedProject.status === 'processing' && updatedProject.status_message`
(JavaScript truthiness: a missing or empty message skips the branch).
On a regex match the guarded writes are
`if (newProgress !== progress) setProgress(newProgress)` and
`if (newStep !== currentStep) setCurrentStep(newStep)`; on a non-match,
`if (status_message !== currentStep) setCurrentStep(status_message)`.
Inside the branch the message is the string the truthiness check accepted. -/
def applyProgress (cap : Captured) (j : Job) (s : CompState) : CompState :=
  if j.status = "processing" ∧ jsTruthy j.statusMessage = true then
    let m := j.statusMessage.getD ""
    (parseProgress m).elim
      (if m ≠ cap.currentStep then { s with currentStep := m } else s)
      (fun r =>
        let sa := if r.1 ≠ cap.progress then { s with progress := r.1 } else s
        if r.2 ≠ cap.currentStep then { sa with currentStep := r.2 } else sa)
  else s

/-- Terminal branch of the tick body:
`if (status === 'completed' || status === 'failed')` the callback clears its
own interval (`clearInterval(interval); pollingIntervalRef.current = null`),
then on `completed` writes `setProgress(100)` and the fixed completion step,
and on `failed` writes `setCurrentStep(status_message || 'Processing failed')`;
these terminal writes are unconditional. -/
def applyTerminal (tid : Nat) (j : Job) (s : CompState) : CompState :=
  if j.status = "completed" ∨ j.status = "failed" then
    let sb := { s with live := s.live.erase tid, pollHandle := none }
    if j.status = "completed" then
      { sb with progress := 100, currentStep := "Processing completed successfully!" }
    else
      { sb with currentStep := jsOrElse j.statusMessage "Processing failed" }
  else s

/-- One run of the interval callback created with timer id `tid` and captured
values `cap`: the `try` block applies the three stages in source order on a
resolved fetch; the `catch` block logs the error and deliberately leaves the
interval running ("Don't clear interval on error, just log it"). -/
def processTick (cap : Captured) (tid : Nat) (r : FetchResult) (s : CompState) : CompState :=
  match r with
  | .ok j => applyTerminal tid j (applyProgress cap j (applyStatus cap j s))
  | .err e => { s with errorLog := s.errorLog ++ [e] }

/-- The body of `pollForUpdates`: unconditionally create a fresh interval
timer (`setInterval(..., ...)`) and record it in `pollingIntervalRef.current`.
There is no check for an already-live timer. -/
def pollForUpdates (s : CompState) : CompState :=
  { s with live := insert s.nextTimer s.live,
           pollHandle := some s.nextTimer,
           nextTimer := s.nextTimer + 1 }

/-- An elapsed polling interval for timer `tid`: the browser invokes the
callback only while the timer is live; a cleared timer produces no further
ticks.  (A callback invocation already in flight is instead modelled by
applying `processTick` directly, since `clearInterval` cannot recall it.) -/
def fireTick (cap : Captured) (tid : Nat) (r : FetchResult) (s : CompState) : CompState :=
  if tid ∈ s.live then processTick cap tid r s else s

/-- Deletion of the tracked job, as `handleDelete` and the effects it
triggers perform it: setting the delete-success flag re-runs the main effect,
whose cleanup clears `pollingIntervalRef.current` and nulls the ref, and the
resolved delete dispatches `deleteProject(id)`, whose reducer drops the job
from the store (`state.projects.filter(p => p.id !== action.payload)` and
nulls `currentProject` when it is the deleted one) — here: the tracked job's
entry is no longer present. -/
def removeJob (s : CompState) : CompState :=
  { s with storeHas := false,
           live := match s.pollHandle with
             | some t => s.live.erase t
             | none => s.live,
           pollHandle := none }

/-- Component state while actively tracking job 1: one live interval timer
with id 0, recorded in the ref, and the job present in the store.  This is
the state reached right after polling has started. -/
def trackedState : CompState :=
  { status := some "processing", progress := 0, currentStep := "", storeHas := true,
    live := {0}, pollHandle := some 0, nextTimer := 1, errorLog := [] }

/-- Component state right after restarting a previously failed job: the
failed detail view shows the Start button; `handleStartProcessing` writes
status `processing`, progress 0 and the starting step, and one second later
`pollForUpdates` installs timer 0 — whose callback closure captured the
`status = 'failed'` of the render the click happened in. -/
def restartedState : CompState :=
  { status := some "processing", progress := 0,
    currentStep := "Starting Wav2Lip processing...", storeHas := true,
    live := {0}, pollHandle := some 0, nextTimer := 1, errorLog := [] }

/-- React re-renders after a tick exactly when one of the state hooks
received a new value (a `setX` whose argument equals the current value is
bailed out); the ref and the timer set are not render state. -/
def rendersDiffer (s t : CompState) : Bool :=
  s.status ≠ t.status || s.progress ≠ t.progress || s.currentStep ≠ t.currentStep

/-- Whether applying one tick to state `s` notifies the view. -/
def tickNotifies (cap : Captured) (tid : Nat) (r : FetchResult) (s : CompState) : Bool :=
  rendersDiffer s (processTick cap tid r s)

/-- Number of view notifications along a sequence of tick results. -/
def notifCount (cap : Captured) (tid : Nat) (s : CompState) : List FetchResult → Nat
  | [] => 0
  | r :: rs =>
    (if tickNotifies cap tid r s then 1 else 0) +
      notifCount cap tid (processTick cap tid r s) rs

/-! ## Fleet polling: the dashboard component

The dashboard's polling `useEffect` filters the current project list to
`p.status === 'processing' || p.status === 'pending'`; when that filter is
empty it returns without creating a timer, otherwise it creates one interval
whose callback fetches exactly the filtered projects (in parallel via
`Promise.all`).  Re-running the effect on a project-list change first runs
the cleanup (`clearInterval`), so one reconciliation pass leaves polling
active for precisely the filtered set. -/

/-- Project record as the dashboard reads it (`error_message` is the field
the dashboard parses progress from). -/
structure DashProject where
  id : Nat
  status : String
  errorMessage : Option String
  deriving DecidableEq

/-- The filter at the top of the dashboard polling effect:
`projects.filter(p => p.status === 'processing' || p.status === 'pending')`. -/
def processingProjects (ps : List DashProject) : List DashProject :=
  ps.filter (fun p => p.status = "processing" || p.status = "pending")

/-- The set of job ids one reconciliation pass polls each tick: the ids of
the filtered projects (the `Promise.all` fans out one `getProject(p.id)` per
filtered project, and no other fetch is issued). -/
def polledIds (ps : List DashProject) : List Nat :=
  (processingProjects ps).map (fun p => p.id)

/-- Whether the effect installs an interval at all:
`if (processingProjects.length === 0) return;`. -/
def fleetTimerCreated (ps : List DashProject) : Bool :=
  !(processingProjects ps).isEmpty

/-! ## API module: axios response interceptor

Every client request goes through the shared `api` axios instance.  Its
response interceptor's error handler checks `error.response?.status === 401`;
on a 401 it removes the stored token (`localStorage.removeItem('token')`) and
navigates (`window.location.href = '/login'`), and in every case re-throws
the error (`Promise.reject(error)`), so the caller's own catch still runs. -/

/-- Browser-visible state the interceptor touches: the stored auth token and
the page location. -/
structure BrowserState where
  token : Option String
  href : String
  deriving DecidableEq

/-- The shape of an axios error as the interceptor inspects it:
`error.response?.status` is absent for network failures. -/
structure ApiError where
  responseStatus : Option Nat
  deriving DecidableEq

/-- The response interceptor's rejection handler: browser state after the
handler, paired with the error it re-throws. -/
def responseOnError (b : BrowserState) (e : ApiError) : BrowserState × ApiError :=
  if e.responseStatus = some 401 then
    ({ b with token := none, href := "/login" }, e)
  else (b, e)

/-! ## Lemmas about the Progress Parser -/

example : parseProgress "Progress 10%: Initializing" = some (10, "Initializing") := by decide
example : parseProgress "xx Progress 7%: a b" = some (7, "a b") := by decide
example : parseProgress "Progress %: x" = none := by decide
example : parseProgress "Progress 50%: Init " = some (50, "Init ") := by decide
example : parseProgress "Progress 5%: a\rb" = some (5, "a") := by decide
example : parseProgress "Progress 5%: a\nProgress 6%: b" = some (5, "a") := by decide
example : String.mk (trimSpec "Init ".toList) = "Init" := by decide
example :
    (processTick ⟨some "processing", 0, ""⟩ 0
      (.ok ⟨1, "processing", some "Progress 10%: Initializing"⟩)
      (pollForUpdates initComp)).progress = 10 := by decide
example :
    (processTick ⟨some "processing", 0, ""⟩ 0
      (.ok ⟨1, "completed", some "Progress 10%: x"⟩)
      (pollForUpdates initComp)).currentStep = "Processing completed successfully!" := by decide

theorem dropLit_append (p l : List Char) : dropLit p (p ++ l) = some l := by
  induction p with
  | nil => rfl
  | cons c cs ih => simp [dropLit, ih]

theorem takeWhile_middle (p : Char → Bool) (l : List Char) (b : Char) (r : List Char)
    (hl : ∀ a ∈ l, p a = true) (hb : p b = false) :
    (l ++ b :: r).takeWhile p = l ∧ (l ++ b :: r).dropWhile p = b :: r := by
  induction l with
  | nil => simp [List.takeWhile, List.dropWhile, hb]
  | cons a as ih =>
    have ha : p a = true := hl a (by simp)
    have ih' := ih fun x hx => hl x (by simp [hx])
    simp [List.takeWhile, List.dropWhile, ha, ih'.1, ih'.2]

theorem matchProgressAt_exact (ds desc : List Char)
    (h1 : ds ≠ []) (h2 : ∀ c ∈ ds, c.isDigit = true)
    (h3 : desc ≠ []) (h4 : ∀ c ∈ desc, jsDotMatches c = true) :
    matchProgressAt ("Progress ".toList ++ (ds ++ ("%: ".toList ++ desc)))
      = some (digitsToNat ds, String.mk desc) := by
  have hmid := takeWhile_middle Char.isDigit ds '%' (':' :: ' ' :: desc) h2 (by decide)
  have hds : ds.isEmpty = false := by cases ds with
    | nil => exact absurd rfl h1
    | cons a as => rfl
  have hdesc : desc.isEmpty = false := by cases desc with
    | nil => exact absurd rfl h3
    | cons a as => rfl
  have hstep : desc.takeWhile jsDotMatches = desc := by
    refine List.takeWhile_eq_self_iff.mpr fun x hx => ?_
    simpa using h4 x hx
  have hdl : dropLit "%: ".toList ('%' :: ':' :: ' ' :: desc) = some desc := by
    simp [dropLit]
  unfold matchProgressAt
  rw [dropLit_append, Option.some_bind]
  rw [show ("%: ".toList ++ desc : List Char) = '%' :: ':' :: ' ' :: desc from rfl]
  simp only [hmid.1, hmid.2, hds, hdl, Option.some_bind, hstep, hdesc]
  simp

theorem findProgressMatch_of_here (l : List Char) (r : Nat × String)
    (h : matchProgressAt l = some r) : findProgressMatch l = some r := by
  cases l with
  | nil =>
    rw [show matchProgressAt ([] : List Char) = none from by decide] at h
    exact Option.noConfusion h
  | cons c cs => simp [findProgressMatch, h, Option.orElse]

/-- Claim C1, corrected: the claim asserts the returned step is the
description trimmed of surrounding whitespace.  For the message
`Progress 50%: Init ` the description — the remainder of the line after
`%: ` — is `Init `, whose trimmed form is `Init`; the parser returns the
untrimmed `Init `, so the claimed output is not produced. -/
theorem parseProgress_trim_cex :
    parseProgress "Progress 50%: Init " = some (50, "Init ") ∧
    parseProgress "Progress 50%: Init " ≠ some (50, String.mk (trimSpec "Init ".toList)) := by
  decide

/-- Claim C1 (amended): for every status message consisting of the pattern
`Progress <N>%: <description>` — `<N>` a nonempty run of decimal digits,
`<description>` a nonempty remainder of the line, free of the line
terminators `.` refuses to match — the parser returns percent `integer(N)`
and step exactly `<description>` as it appears, with no trimming of
surrounding whitespace. -/
theorem parseProgress_exact (ds desc : List Char)
    (h1 : ds ≠ []) (h2 : ∀ c ∈ ds, c.isDigit = true)
    (h3 : desc ≠ []) (h4 : ∀ c ∈ desc, jsDotMatches c = true) :
    parseProgress (String.mk ("Progress ".toList ++ (ds ++ ("%: ".toList ++ desc))))
      = some (digitsToNat ds, String.mk desc) := by
  have h := matchProgressAt_exact ds desc h1 h2 h3 h4
  unfold parseProgress
  rw [show (String.mk ("Progress ".toList ++ (ds ++ ("%: ".toList ++ desc)))).toList
        = "Progress ".toList ++ (ds ++ ("%: ".toList ++ desc)) from rfl]
  exact findProgressMatch_of_here _ _ h

/-- Witness for the amended C1 theorem at the concrete message
`Progress 10%: Ok`. -/
theorem parseProgress_exact_witness :
    parseProgress (String.mk ("Progress ".toList ++ (['1', '0'] ++ ("%: ".toList ++ ['O', 'k']))))
      = some (digitsToNat ['1', '0'], String.mk ['O', 'k']) :=
  parseProgress_exact ['1', '0'] ['O', 'k'] (by decide) (by decide) (by decide) (by decide)

/-! ## Lemmas about the tick stages -/

theorem update_status_self (t : CompState) (v : Option String) (h : t.status = v) :
    { t with status := v } = t := by
  cases t
  cases h
  rfl

theorem applyStatus_of_status (cap : Captured) (j : Job) (t : CompState)
    (h : t.status = some j.status) : applyStatus cap j t = t := by
  unfold applyStatus
  split
  · exact update_status_self t (some j.status) h
  · rfl

theorem applyStatus_status_pos (cap : Captured) (j : Job) (t : CompState)
    (h : some j.status ≠ cap.status) : (applyStatus cap j t).status = some j.status := by
  unfold applyStatus
  rw [if_pos h]

theorem applyStatus_progress (cap : Captured) (j : Job) (t : CompState) :
    (applyStatus cap j t).progress = t.progress := by
  unfold applyStatus
  split <;> rfl

theorem applyStatus_idem (cap : Captured) (j : Job) (t : CompState) :
    applyStatus cap j (applyStatus cap j t) = applyStatus cap j t := by
  unfold applyStatus
  split <;> rfl

theorem applyProgress_status (cap : Captured) (j : Job) (t : CompState) :
    (applyProgress cap j t).status = t.status := by
  unfold applyProgress
  split
  · rcases hp : parseProgress (j.statusMessage.getD "") with _ | r <;>
      simp only [hp, Option.elim] <;> split <;> try split
    all_goals rfl
  · rfl

theorem applyProgress_of_not_processing (cap : Captured) (j : Job) (t : CompState)
    (h : j.status ≠ "processing") : applyProgress cap j t = t := by
  unfold applyProgress
  rw [if_neg fun hc => h hc.1]

theorem applyTerminal_status (tid : Nat) (j : Job) (t : CompState) :
    (applyTerminal tid j t).status = t.status := by
  unfold applyTerminal
  split <;> try split
  all_goals rfl

theorem applyTerminal_of_nonterminal (tid : Nat) (j : Job) (t : CompState)
    (h : ¬(j.status = "completed" ∨ j.status = "failed")) : applyTerminal tid j t = t := by
  unfold applyTerminal
  rw [if_neg h]

theorem applyProgress_idem (cap : Captured) (j : Job) (t : CompState) :
    applyProgress cap j (applyProgress cap j t) = applyProgress cap j t := by
  by_cases hG : j.status = "processing" ∧ jsTruthy j.statusMessage = true
  · unfold applyProgress
    simp only [if_pos hG]
    rcases hp : parseProgress (j.statusMessage.getD "") with _ | r <;>
      simp only [hp, Option.elim] <;> split_ifs <;> rfl
  · unfold applyProgress
    simp only [if_neg hG]

theorem applyTerminal_idem (tid : Nat) (j : Job) (t : CompState) :
    applyTerminal tid j (applyTerminal tid j t) = applyTerminal tid j t := by
  by_cases hterm : j.status = "completed" ∨ j.status = "failed"
  · have herase : (t.live.erase tid).erase tid = t.live.erase tid :=
      Finset.erase_eq_self.mpr (Finset.not_mem_erase tid t.live)
    unfold applyTerminal
    simp only [if_pos hterm]
    by_cases hc : j.status = "completed"
    · simp only [if_pos hc]
      simp [herase]
    · simp only [if_neg hc]
      simp [herase]
  · unfold applyTerminal
    simp only [if_neg hterm]

theorem applyStatus_after_tick (cap : Captured) (tid : Nat) (j : Job) (s : CompState) :
    applyStatus cap j (processTick cap tid (.ok j) s) = processTick cap tid (.ok j) s := by
  by_cases hC : some j.status ≠ cap.status
  · apply applyStatus_of_status
    have hred : processTick cap tid (.ok j) s
        = applyTerminal tid j (applyProgress cap j (applyStatus cap j s)) := rfl
    rw [hred, applyTerminal_status, applyProgress_status, applyStatus_status_pos cap j s hC]
  · unfold applyStatus
    rw [if_neg hC]

theorem rendersDiffer_self (t : CompState) : rendersDiffer t t = false := by
  simp [rendersDiffer]

/-! ## The claims about the poller, the deletion race and the fleet -/

/-- Claim C3, corrected: starting the poller twice in a row does not leave
exactly one active timer — from the initial component state two calls of
`pollForUpdates` leave two live interval timers, because the function has no
guard against an already-live timer. -/
theorem pollForUpdates_twice_not_one :
    (pollForUpdates (pollForUpdates initComp)).live.card = 2 ∧
    ¬ (pollForUpdates (pollForUpdates initComp)).live.card = 1 := by
  decide

/-- Claim C3 (amended): invoking `pollForUpdates` twice in a row creates one
live timer per call — two more than before, not one — and only the second
timer's id is recorded in `pollingIntervalRef`; the first keeps firing but
can no longer be cleared through the ref. -/
theorem pollForUpdates_twice_leaks (s : CompState)
    (h : ∀ t ∈ s.live, t < s.nextTimer) :
    (pollForUpdates (pollForUpdates s)).live.card = s.live.card + 2 ∧
    (pollForUpdates (pollForUpdates s)).pollHandle = some (s.nextTimer + 1) := by
  have h0 : s.nextTimer ∉ s.live := fun hm => lt_irrefl _ (h _ hm)
  have h1 : s.nextTimer + 1 ∉ insert s.nextTimer s.live := by
    intro hm
    rcases Finset.mem_insert.mp hm with he | hm
    · omega
    · have := h _ hm
      omega
  refine ⟨?_, rfl⟩
  rw [show (pollForUpdates (pollForUpdates s)).live
        = insert (s.nextTimer + 1) (insert s.nextTimer s.live) from rfl]
  rw [Finset.card_insert_of_not_mem h1, Finset.card_insert_of_not_mem h0]

/-- Witness for the amended C3 theorem at the initial component state. -/
theorem pollForUpdates_twice_leaks_witness :
    (pollForUpdates (pollForUpdates initComp)).live.card = initComp.live.card + 2 ∧
    (pollForUpdates (pollForUpdates initComp)).pollHandle = some (initComp.nextTimer + 1) :=
  pollForUpdates_twice_leaks initComp (by decide)

/-- Claim C5: a tick whose fetch rejects only appends the error to the
console log: every other component of the state — the live timer set, the
interval ref, and all view state — is unchanged, so the loop continues;
the tick is a total function of the fetch outcome, so the rejection is
consumed at the tick boundary and nothing escapes. -/
theorem errTick_logs_and_continues (cap : Captured) (tid : Nat) (e : String) (s : CompState) :
    processTick cap tid (.err e) s = { s with errorLog := s.errorLog ++ [e] } := rfl

/-- Claim C6: a tick observing status `completed` forces percent 100 and the
fixed completion step string, whatever the status message contains. -/
theorem completedTick_forces_100 (cap : Captured) (tid : Nat) (i : Nat)
    (msg : Option String) (s : CompState) :
    (processTick cap tid (.ok ⟨i, "completed", msg⟩) s).progress = 100 ∧
    (processTick cap tid (.ok ⟨i, "completed", msg⟩) s).currentStep
      = "Processing completed successfully!" :=
  ⟨rfl, rfl⟩

/-- Claim C9: a tick observing status `failed` sets the step to the status
message — or to the default `Processing failed` when the message is absent
(or empty, which JavaScript treats the same) — and any number of repeated
applications of the failed update leaves the previously held percent
exactly as it was: frozen, not reset. -/
theorem failedTick_freezes_percent (cap : Captured) (tid : Nat) (i : Nat)
    (msg : Option String) (s : CompState) (n : Nat) :
    (processTick cap tid (.ok ⟨i, "failed", msg⟩) s).currentStep
        = jsOrElse msg "Processing failed" ∧
    ((fun t => processTick cap tid (.ok ⟨i, "failed", msg⟩) t)^[n] s).progress
        = s.progress := by
  have hone : ∀ t : CompState,
      (processTick cap tid (.ok ⟨i, "failed", msg⟩) t).progress = t.progress := by
    intro t
    have hred : (processTick cap tid (.ok ⟨i, "failed", msg⟩) t).progress
        = (applyStatus cap ⟨i, "failed", msg⟩ t).progress := rfl
    rw [hred, applyStatus_progress]
  refine ⟨rfl, ?_⟩
  induction n with
  | zero => rfl
  | succ k ih => rw [Function.iterate_succ_apply', hone, ih]

/-- Claim C4 (amended): on a tick observing a terminal status the poller
stops — the tick's own interval is no longer live, the ref is cleared, and
any number of further elapsed intervals of that timer leave the state
exactly as the terminal tick left it — and the terminal status is visible
in the stored state provided the closure-captured status differs from the
observed terminal status (the fresh-start paths); on the restart-from-failed
path, where the capture already equals `failed`, the stored status keeps its
previous value (see the counterexample). -/
theorem terminalTick_stops_after_update (cap : Captured) (tid : Nat) (j : Job)
    (s : CompState) (hterm : j.status = "completed" ∨ j.status = "failed")
    (hcap : cap.status ≠ some j.status) :
    (processTick cap tid (.ok j) s).status = some j.status ∧
    tid ∉ (processTick cap tid (.ok j) s).live ∧
    (processTick cap tid (.ok j) s).pollHandle = none ∧
    ∀ rs : List FetchResult,
      rs.foldl (fun t r => fireTick cap tid r t) (processTick cap tid (.ok j) s)
        = processTick cap tid (.ok j) s := by
  have hstatus : (processTick cap tid (.ok j) s).status = some j.status := by
    have hred : processTick cap tid (.ok j) s
        = applyTerminal tid j (applyProgress cap j (applyStatus cap j s)) := rfl
    rw [hred, applyTerminal_status, applyProgress_status,
      applyStatus_status_pos cap j s (Ne.symm hcap)]
  have hstop : tid ∉ (processTick cap tid (.ok j) s).live ∧
      (processTick cap tid (.ok j) s).pollHandle = none := by
    have hred : processTick cap tid (.ok j) s
        = applyTerminal tid j (applyProgress cap j (applyStatus cap j s)) := rfl
    rw [hred]
    unfold applyTerminal
    rw [if_pos hterm]
    split
    · exact ⟨Finset.not_mem_erase tid _, rfl⟩
    · exact ⟨Finset.not_mem_erase tid _, rfl⟩
  refine ⟨hstatus, hstop.1, hstop.2, ?_⟩
  have hfire : ∀ r, fireTick cap tid r (processTick cap tid (.ok j) s)
      = processTick cap tid (.ok j) s := by
    intro r
    unfold fireTick
    rw [if_neg hstop.1]
  intro rs
  induction rs with
  | nil => rfl
  | cons r rs ih => rw [List.foldl_cons, hfire, ih]

/-- Claim C4 counterexample: on the restart-from-failed path the interval
closure captures status `failed` (the Start button is rendered for failed
jobs, and the render `handleStartProcessing` runs in still has
`status = 'failed'`); when the first tick then observes `failed` again, the
guard `updatedProject.status !== status` is false, `setStatus` is skipped,
and the poller stops with the stored status still `processing` — the
terminal state is not visible in the stored state when polling ends. -/
theorem terminalTick_stale_status_cex :
    (processTick ⟨some "failed", 0, ""⟩ 0 (.ok ⟨1, "failed", none⟩)
        restartedState).pollHandle = none ∧
    0 ∉ (processTick ⟨some "failed", 0, ""⟩ 0 (.ok ⟨1, "failed", none⟩)
        restartedState).live ∧
    (processTick ⟨some "failed", 0, ""⟩ 0 (.ok ⟨1, "failed", none⟩)
        restartedState).status = some "processing" ∧
    ¬ (processTick ⟨some "failed", 0, ""⟩ 0 (.ok ⟨1, "failed", none⟩)
        restartedState).status = some "failed" := by
  decide

/-- Witness for the amended C4 theorem: a completed tick on the tracked
state. -/
theorem terminalTick_stops_witness :
    (processTick ⟨some "processing", 0, ""⟩ 0 (.ok ⟨1, "completed", none⟩)
        trackedState).status = some "completed" ∧
    0 ∉ (processTick ⟨some "processing", 0, ""⟩ 0 (.ok ⟨1, "completed", none⟩)
        trackedState).live ∧
    (processTick ⟨some "processing", 0, ""⟩ 0 (.ok ⟨1, "completed", none⟩)
        trackedState).pollHandle = none ∧
    ∀ rs : List FetchResult,
      rs.foldl (fun t r => fireTick ⟨some "processing", 0, ""⟩ 0 r t)
          (processTick ⟨some "processing", 0, ""⟩ 0 (.ok ⟨1, "completed", none⟩) trackedState)
        = processTick ⟨some "processing", 0, ""⟩ 0 (.ok ⟨1, "completed", none⟩) trackedState :=
  terminalTick_stops_after_update ⟨some "processing", 0, ""⟩ 0 ⟨1, "completed", none⟩
    trackedState (Or.inl rfl) (by decide)

/-- Claim C2 (code divergence): after the job is removed — store entry
deleted, poller cleared — a late successful poll result for the same id is
not discarded: the tick body has no id-presence check, so it still writes
the parsed progress and step into the component's state.  The store itself
stays without the job only because the poll path never writes the store at
all, not because of any check. -/
theorem lateTick_after_remove_updates :
    (removeJob trackedState).storeHas = false ∧
    (removeJob trackedState).progress = 0 ∧
    (processTick ⟨some "processing", 0, ""⟩ 0
        (.ok ⟨1, "processing", some "Progress 50%: Halfway"⟩)
        (removeJob trackedState)).progress = 50 ∧
    (processTick ⟨some "processing", 0, ""⟩ 0
        (.ok ⟨1, "processing", some "Progress 50%: Halfway"⟩)
        (removeJob trackedState)).currentStep = "Halfway" ∧
    (processTick ⟨some "processing", 0, ""⟩ 0
        (.ok ⟨1, "processing", some "Progress 50%: Halfway"⟩)
        (removeJob trackedState)).storeHas = false := by
  decide

/-- Claim C8: after one reconciliation pass of the dashboard effect, a job
id is polled exactly when some project in the current list carries it with
non-terminal status (`processing` or `pending`); in particular for the
fleet [job 1: pending, job 2: completed, job 3: processing] the polled ids
are [1, 3], so pollers exist for jobs 1 and 3 and none for job 2. -/
theorem polledIds_exactly_nonterminal (ps : List DashProject) (i : Nat) :
    (i ∈ polledIds ps ↔
      ∃ p ∈ ps, p.id = i ∧ (p.status = "processing" ∨ p.status = "pending")) ∧
    polledIds [⟨1, "pending", none⟩, ⟨2, "completed", none⟩, ⟨3, "processing", none⟩]
      = [1, 3] := by
  constructor
  · simp only [polledIds, processingProjects, List.mem_map, List.mem_filter,
      Bool.or_eq_true, decide_eq_true_eq]
    constructor
    · rintro ⟨p, ⟨hp, hst⟩, hid⟩
      exact ⟨p, hp, hid, hst⟩
    · rintro ⟨p, hp, hid, hst⟩
      exact ⟨p, ⟨hp, hst⟩, hid⟩
  · decide

/-- Claim C10: when any request through the shared axios instance fails with
HTTP status 401, the response interceptor removes the stored auth token and
sets the page location to /login — ending the session and, by replacing the
page, the polling context — while still re-throwing the error to the
caller. -/
theorem response401_clears_token_redirects (b : BrowserState) (e : ApiError)
    (h : e.responseStatus = some 401) :
    responseOnError b e = ({ b with token := none, href := "/login" }, e) := by
  unfold responseOnError
  rw [if_pos h]

/-- Witness for the C10 theorem at a concrete 401 error. -/
theorem response401_witness :
    responseOnError ⟨some "tok", "/dashboard"⟩ ⟨some 401⟩
      = (⟨none, "/login"⟩, ⟨some 401⟩) :=
  response401_clears_token_redirects ⟨some "tok", "/dashboard"⟩ ⟨some 401⟩ rfl

/-- Claim C7: applying the same successful poll result a second time changes
nothing: all value-equality guards (and React's bail-out on writes of the
current value) make the second application the identity, it triggers no
re-render, and two consecutive ticks with identical job data notify the
view exactly as often as one tick does. -/
theorem tick_upsert_idempotent (cap : Captured) (tid : Nat) (j : Job) (s : CompState) :
    processTick cap tid (.ok j) (processTick cap tid (.ok j) s)
        = processTick cap tid (.ok j) s ∧
    tickNotifies cap tid (.ok j) (processTick cap tid (.ok j) s) = false ∧
    notifCount cap tid s [.ok j, .ok j] = notifCount cap tid s [.ok j] := by
  have hred : ∀ t, processTick cap tid (.ok j) t
      = applyTerminal tid j (applyProgress cap j (applyStatus cap j t)) := fun _ => rfl
  have hidem : processTick cap tid (.ok j) (processTick cap tid (.ok j) s)
      = processTick cap tid (.ok j) s := by
    have step1 : processTick cap tid (.ok j) (processTick cap tid (.ok j) s)
        = applyTerminal tid j (applyProgress cap j (processTick cap tid (.ok j) s)) := by
      rw [hred (processTick cap tid (.ok j) s), applyStatus_after_tick]
    by_cases hproc : j.status = "processing"
    · have hnt : ¬(j.status = "completed" ∨ j.status = "failed") := by
        rw [hproc]; decide
      have hu : processTick cap tid (.ok j) s
          = applyProgress cap j (applyStatus cap j s) := by
        rw [hred s, applyTerminal_of_nonterminal tid j _ hnt]
      calc processTick cap tid (.ok j) (processTick cap tid (.ok j) s)
          = applyTerminal tid j (applyProgress cap j (processTick cap tid (.ok j) s)) :=
            step1
        _ = applyProgress cap j (processTick cap tid (.ok j) s) :=
            applyTerminal_of_nonterminal tid j _ hnt
        _ = applyProgress cap j (applyProgress cap j (applyStatus cap j s)) := by rw [hu]
        _ = applyProgress cap j (applyStatus cap j s) := applyProgress_idem cap j _
        _ = processTick cap tid (.ok j) s := hu.symm
    · have hnp : ∀ t, applyProgress cap j t = t := fun t =>
        applyProgress_of_not_processing cap j t hproc
      have hu : processTick cap tid (.ok j) s
          = applyTerminal tid j (applyStatus cap j s) := by
        rw [hred s, hnp]
      calc processTick cap tid (.ok j) (processTick cap tid (.ok j) s)
          = applyTerminal tid j (applyProgress cap j (processTick cap tid (.ok j) s)) :=
            step1
        _ = applyTerminal tid j (processTick cap tid (.ok j) s) := by rw [hnp]
        _ = applyTerminal tid j (applyTerminal tid j (applyStatus cap j s)) := by rw [hu]
        _ = applyTerminal tid j (applyStatus cap j s) := applyTerminal_idem tid j _
        _ = processTick cap tid (.ok j) s := hu.symm
  have hnotif : tickNotifies cap tid (.ok j) (processTick cap tid (.ok j) s) = false := by
    unfold tickNotifies
    rw [hidem, rendersDiffer_self]
  refine ⟨hidem, hnotif, ?_⟩
  simp [notifCount, hnotif]

end LipSync
